import Mathlib

/-!
Verification of the `FirstInteractive` computed-artifact module of Lighthouse
(`first-interactive.js`): the quiet-window detector that computes the
"time to first interactive" metric from a list of long tasks after the
first meaningful paint (FMP).

Times are JavaScript numbers; we model them as real numbers.  The loops of
the source become well-founded recursive functions, and the possible
runtime fault from the unguarded `longTasks[i - 1].end` property access is
modelled by `Option` / a dedicated `fault` error value.
-/

open scoped Classical

namespace FirstInteractive

/-- A long task on the main thread: `{start, end}` in ms relative to
navigation start. -/
structure Task where
  start : ℝ
  «end» : ℝ

/-- `LONG_TASK_THRESHOLD` from the source (first excerpt). -/
def LONG_TASK_THRESHOLD : ℝ := 50

/-- `LONELY_TASK_FMP_DISTANCE` from the source. -/
def LONELY_TASK_FMP_DISTANCE : ℝ := 5000

/-- `LONELY_TASK_ENVELOPE_SIZE` from the source. -/
def LONELY_TASK_ENVELOPE_SIZE : ℝ := 250

/-- `LONELY_TASK_NEIGHBOR_DISTANCE` from the source. -/
def LONELY_TASK_NEIGHBOR_DISTANCE : ℝ := 1000

/-- `MAX_QUIET_WINDOW_SIZE` from the source. -/
def MAX_QUIET_WINDOW_SIZE : ℝ := 5000

/-- The ways the computation can abort: the two thrown `Error`s of the
source, plus `fault` for a JavaScript `TypeError` (property access on
`undefined`). -/
inductive FIError where
  | traceBusy
  | traceTooShort
  | fault
deriving DecidableEq

/-- `FirstInteractive.getRequiredWindowSizeInMs` from the source:
`(4 * e^(-0.045 * t/1000) + 1) * 1000`. -/
noncomputable def getRequiredWindowSizeInMs (t : ℝ) : ℝ :=
  let tInSeconds := t / 1000
  let exponentiationComponent := Real.exp (-0.045 * tInSeconds)
  (4 * exponentiationComponent + 1) * 1000

/-- The forward-scan loop inside `getLastLonelyTaskIndex`:
`for (let j = i + 1; longTasks[j] && longTasks[j].start < windowEnd; j++) ...`,
with `lonelyTaskIndex` the mutable accumulator of the source.  (In the
source the loop guard `longTasks[j]` is truthy exactly when `j` is in
bounds, since the elements are objects.) -/
noncomputable def lonelyScan (longTasks : List Task) (envelopeEnd windowEnd : ℝ)
    (j : ℕ) (lonelyTaskIndex : ℤ) : ℤ :=
  if hj : j < longTasks.length then
    if longTasks[j].start < windowEnd then
      lonelyScan longTasks envelopeEnd windowEnd (j + 1)
        (if longTasks[j].«end» > envelopeEnd then -1 else (j : ℤ))
    else lonelyTaskIndex
  else lonelyTaskIndex
termination_by longTasks.length - j
decreasing_by omega

/-- `FirstInteractive.getLastLonelyTaskIndex` from the source.  The result is
`none` when the JavaScript code would throw a `TypeError`: `longTask.start`
faults when `i` is out of bounds, and `previousTask.end` faults when
`i = 0` — the latter only when the first two disjuncts of the guard are
false, because `||` short-circuits. -/
noncomputable def getLastLonelyTaskIndex (longTasks : List Task) (i : ℕ)
    (FMP traceEnd : ℝ) : Option ℤ :=
  if hi : i < longTasks.length then
    let longTask := longTasks[i]
    if longTask.start < FMP + LONELY_TASK_FMP_DISTANCE ∨
        traceEnd - longTask.«end» < LONELY_TASK_NEIGHBOR_DISTANCE then
      some (-1)
    else if hprev : 1 ≤ i then
      let previousTask := longTasks.get ⟨i - 1, by omega⟩
      if longTask.start - previousTask.«end» < LONELY_TASK_NEIGHBOR_DISTANCE ∨
          longTask.«end» - longTask.start > LONELY_TASK_ENVELOPE_SIZE then
        some (-1)
      else
        some (lonelyScan longTasks
          (longTask.start + LONELY_TASK_ENVELOPE_SIZE)
          (longTask.start + LONELY_TASK_ENVELOPE_SIZE + LONELY_TASK_NEIGHBOR_DISTANCE)
          (i + 1) (i : ℤ))
    else none
  else none

/-- The scan accumulator is only ever left alone, set to `-1`, or set to an
in-range index at or past the scan start. -/
theorem lonelyScan_cases (longTasks : List Task) (envelopeEnd windowEnd : ℝ) :
    ∀ (j : ℕ) (acc : ℤ),
      lonelyScan longTasks envelopeEnd windowEnd j acc = acc ∨
      lonelyScan longTasks envelopeEnd windowEnd j acc = -1 ∨
      ∃ m : ℕ, lonelyScan longTasks envelopeEnd windowEnd j acc = (m : ℤ) ∧
        j ≤ m ∧ m < longTasks.length := by
  intro j acc
  induction j, acc using lonelyScan.induct longTasks envelopeEnd windowEnd with
  | case1 j acc hj hlt ih =>
    simp only [dite_eq_ite] at ih
    rw [lonelyScan, dif_pos hj, if_pos hlt]
    rcases ih with h1 | h1 | ⟨m, h1, h2, h3⟩
    · rw [h1]
      by_cases hub : longTasks[j].«end» > envelopeEnd
      · right; left; rw [if_pos hub]
      · right; right
        exact ⟨j, by rw [if_neg hub], le_refl j, hj⟩
    · right; left; exact h1
    · right; right; exact ⟨m, h1, by omega, h3⟩
  | case2 j acc hj hlt =>
    left
    rw [lonelyScan, dif_pos hj, if_neg hlt]
  | case3 j acc hj =>
    left
    rw [lonelyScan, dif_neg hj]

/-- When `getLastLonelyTaskIndex` succeeds with a value other than `-1`,
that value is an index between `i` and the end of the list. -/
theorem getLastLonelyTaskIndex_bounds (longTasks : List Task) (i : ℕ)
    (FMP traceEnd : ℝ) (k : ℤ)
    (h : getLastLonelyTaskIndex longTasks i FMP traceEnd = some k)
    (hk : k ≠ -1) : (i : ℤ) ≤ k ∧ k < (longTasks.length : ℤ) := by
  rw [getLastLonelyTaskIndex] at h
  by_cases hi : i < longTasks.length
  swap
  · rw [dif_neg hi] at h; exact absurd h (by simp)
  rw [dif_pos hi] at h
  by_cases hc1 : longTasks[i].start < FMP + LONELY_TASK_FMP_DISTANCE ∨
      traceEnd - longTasks[i].«end» < LONELY_TASK_NEIGHBOR_DISTANCE
  · rw [if_pos hc1] at h
    exact absurd (Option.some_injective _ h).symm hk
  rw [if_neg hc1] at h
  by_cases hprev : 1 ≤ i
  swap
  · rw [dif_neg hprev] at h; exact absurd h (by simp)
  rw [dif_pos hprev] at h
  by_cases hc2 : longTasks[i].start - (longTasks.get ⟨i - 1, by omega⟩).«end» <
        LONELY_TASK_NEIGHBOR_DISTANCE ∨
      longTasks[i].«end» - longTasks[i].start > LONELY_TASK_ENVELOPE_SIZE
  · rw [if_pos hc2] at h
    exact absurd (Option.some_injective _ h).symm hk
  rw [if_neg hc2] at h
  have hval := Option.some_injective _ h
  rcases lonelyScan_cases longTasks
      (longTasks[i].start + LONELY_TASK_ENVELOPE_SIZE)
      (longTasks[i].start + LONELY_TASK_ENVELOPE_SIZE + LONELY_TASK_NEIGHBOR_DISTANCE)
      (i + 1) (i : ℤ) with hs | hs | ⟨m, hs, hm1, hm2⟩
  · rw [hs] at hval
    omega
  · rw [hs] at hval; exact absurd hval.symm hk
  · rw [hs] at hval
    omega

/-- The inner loop of `findQuietWindow`:
`for (let j = i + 1; j < longTasks.length && longTasks[j].start < windowEnd; j++)`,
returning `some isQuiet`, or `none` when a classifier call faults.  On a
lonely envelope the source sets `j = lastLonelyTaskIndex` and the loop
header then increments, so the next scanned index is
`lastLonelyTaskIndex + 1`. -/
noncomputable def quietScan (longTasks : List Task) (FMP traceEnd windowEnd : ℝ)
    (j : ℕ) : Option Bool :=
  if hj : j < longTasks.length then
    if longTasks[j].start < windowEnd then
      match hl : getLastLonelyTaskIndex longTasks j FMP traceEnd with
      | none => none
      | some lastLonelyTaskIndex =>
        if hneg : lastLonelyTaskIndex = -1 then some false
        else quietScan longTasks FMP traceEnd windowEnd (lastLonelyTaskIndex.toNat + 1)
    else some true
  else some true
termination_by longTasks.length - j
decreasing_by
  have hb := getLastLonelyTaskIndex_bounds longTasks j FMP traceEnd
    lastLonelyTaskIndex hl hneg
  omega

/-- The outer loop of `findQuietWindow`: each long task's `end` is a
candidate window start. -/
noncomputable def quietLoop (FMP traceEnd : ℝ) (longTasks : List Task)
    (i : ℕ) : Except FIError ℝ :=
  if hi : i < longTasks.length then
    let windowStart := longTasks[i].«end»
    let windowSize := getRequiredWindowSizeInMs (windowStart - FMP)
    let windowEnd := windowStart + windowSize
    if windowEnd > traceEnd then .error .traceBusy
    else
      match quietScan longTasks FMP traceEnd windowEnd (i + 1) with
      | none => .error .fault
      | some true => .ok windowStart
      | some false => quietLoop FMP traceEnd longTasks (i + 1)
  else .error .traceBusy
termination_by longTasks.length - i
decreasing_by omega

/-- `FirstInteractive.findQuietWindow` from the source. -/
noncomputable def findQuietWindow (FMP traceEnd : ℝ) (longTasks : List Task) :
    Except FIError ℝ :=
  match longTasks with
  | [] => .ok FMP
  | t0 :: rest =>
    if t0.start > FMP + MAX_QUIET_WINDOW_SIZE then .ok FMP
    else quietLoop FMP traceEnd (t0 :: rest) 0

/-- The `timings` part of the `traceOfTab` artifact used by the source. -/
structure TraceTimings where
  firstMeaningfulPaint : ℝ
  domContentLoaded : ℝ
  traceEnd : ℝ

/-- The `timestamps` part of the `traceOfTab` artifact used by the source. -/
structure TraceTimestamps where
  navigationStart : ℝ

/-- The `traceOfTab` artifact as consumed by `computeWithArtifacts`. -/
structure TraceOfTab where
  timings : TraceTimings
  timestamps : TraceTimestamps

/-- The record `{timeInMs, timestamp}` returned by `computeWithArtifacts`. -/
structure FirstInteractiveResult where
  timeInMs : ℝ
  timestamp : ℝ

/-- `FirstInteractive.computeWithArtifacts` from the source.
`mainThreadEvents` stands for the value of the external collaborator call
`TracingProcessor.getMainThreadTopLevelEvents(traceModel, trace, FMP)`; the
function then filters it exactly as the source does. -/
noncomputable def computeWithArtifacts (mainThreadEvents : List Task)
    (traceOfTab : TraceOfTab) : Except FIError FirstInteractiveResult :=
  let navStart := traceOfTab.timestamps.navigationStart
  let FMP := traceOfTab.timings.firstMeaningfulPaint
  let DCL := traceOfTab.timings.domContentLoaded
  let traceEnd := traceOfTab.timings.traceEnd
  if traceEnd - FMP < MAX_QUIET_WINDOW_SIZE then .error .traceTooShort
  else
    let longTasksAfterFMP := mainThreadEvents.filter
      (fun evt => decide (evt.«end» - evt.start ≥ LONG_TASK_THRESHOLD ∧ evt.«end» > FMP))
    match findQuietWindow FMP traceEnd longTasksAfterFMP with
    | .error e => .error e
    | .ok firstInteractive =>
      let valueInMs := max firstInteractive DCL
      .ok ⟨valueInMs, (valueInMs + navStart) * 1000⟩

/-- Unfolding step for `quietScan` when the classifier yields a value. -/
theorem quietScan_step (longTasks : List Task) (FMP traceEnd windowEnd : ℝ)
    (j : ℕ) (k : ℤ) (hj : j < longTasks.length)
    (hst : longTasks[j].start < windowEnd)
    (hl : getLastLonelyTaskIndex longTasks j FMP traceEnd = some k) :
    quietScan longTasks FMP traceEnd windowEnd j =
      if k = -1 then some false
      else quietScan longTasks FMP traceEnd windowEnd (k.toNat + 1) := by
  rw [quietScan, dif_pos hj, if_pos hst]
  split
  · next heq => rw [hl] at heq; cases heq
  · next k' heq =>
    rw [hl] at heq
    cases heq
    rw [dite_eq_ite]

/-- Unfolding step for `quietScan` when the scanned index is past the
window or the list. -/
theorem quietScan_stop (longTasks : List Task) (FMP traceEnd windowEnd : ℝ)
    (j : ℕ) (h : ∀ hj : j < longTasks.length, ¬longTasks[j].start < windowEnd) :
    quietScan longTasks FMP traceEnd windowEnd j = some true := by
  rw [quietScan]
  by_cases hj : j < longTasks.length
  · rw [dif_pos hj, if_neg (h hj)]
  · rw [dif_neg hj]

/-- Unfolding `quietLoop` past the end of the task list. -/
theorem quietLoop_out (FMP traceEnd : ℝ) (longTasks : List Task) (i : ℕ)
    (hi : ¬i < longTasks.length) :
    quietLoop FMP traceEnd longTasks i = .error .traceBusy := by
  rw [quietLoop, dif_neg hi]

/-- Unfolding `quietLoop` when the candidate window overruns the trace. -/
theorem quietLoop_busy (FMP traceEnd : ℝ) (longTasks : List Task) (i : ℕ)
    (hi : i < longTasks.length)
    (hgt : longTasks[i].«end» + getRequiredWindowSizeInMs (longTasks[i].«end» - FMP) >
      traceEnd) :
    quietLoop FMP traceEnd longTasks i = .error .traceBusy := by
  rw [quietLoop, dif_pos hi]
  simp only
  rw [if_pos hgt]

/-- Unfolding `quietLoop` when the candidate window fits and is quiet. -/
theorem quietLoop_quiet (FMP traceEnd : ℝ) (longTasks : List Task) (i : ℕ)
    (hi : i < longTasks.length)
    (hle : ¬longTasks[i].«end» + getRequiredWindowSizeInMs (longTasks[i].«end» - FMP) >
      traceEnd)
    (hq : quietScan longTasks FMP traceEnd
      (longTasks[i].«end» + getRequiredWindowSizeInMs (longTasks[i].«end» - FMP))
      (i + 1) = some true) :
    quietLoop FMP traceEnd longTasks i = .ok longTasks[i].«end» := by
  rw [quietLoop, dif_pos hi]
  simp only
  rw [if_neg hle, hq]

/-- Unfolding `quietLoop` when the candidate window fits but is not quiet. -/
theorem quietLoop_next (FMP traceEnd : ℝ) (longTasks : List Task) (i : ℕ)
    (hi : i < longTasks.length)
    (hle : ¬longTasks[i].«end» + getRequiredWindowSizeInMs (longTasks[i].«end» - FMP) >
      traceEnd)
    (hq : quietScan longTasks FMP traceEnd
      (longTasks[i].«end» + getRequiredWindowSizeInMs (longTasks[i].«end» - FMP))
      (i + 1) = some false) :
    quietLoop FMP traceEnd longTasks i = quietLoop FMP traceEnd longTasks (i + 1) := by
  rw [quietLoop, dif_pos hi]
  simp only
  rw [if_neg hle, hq]

example : findQuietWindow 200 1000 [] = .ok 200 := by
  rw [findQuietWindow]

example : findQuietWindow 200 60000 [⟨5600, 6000⟩] = .ok 200 := by
  rw [findQuietWindow]
  norm_num [MAX_QUIET_WINDOW_SIZE]

example : findQuietWindow 200 60000 [⟨2200, 4000⟩, ⟨9000, 10000⟩] = .ok 4000 := by
  have hexp1 : Real.exp (-0.045 * ((4000 - 200) / 1000)) ≤ 1 := by
    rw [Real.exp_le_one_iff]; norm_num
  have hexp0 : (0:ℝ) < Real.exp (-0.045 * ((4000 - 200) / 1000)) := Real.exp_pos _
  rw [findQuietWindow]
  rw [if_neg (by norm_num [MAX_QUIET_WINDOW_SIZE])]
  rw [quietLoop_quiet 200 60000 _ 0 (by norm_num) ?hle ?hq]
  · simp only [List.getElem_cons_zero]
  case hle =>
    simp only [List.getElem_cons_zero, getRequiredWindowSizeInMs]
    intro hgt
    nlinarith
  case hq =>
    apply quietScan_stop
    intro hj
    simp only [List.getElem_cons_zero, List.getElem_cons_succ,
      getRequiredWindowSizeInMs]
    intro hlt
    nlinarith

example : getLastLonelyTaskIndex
    [⟨2200, 10000⟩, ⟨11000, 11500⟩, ⟨12750, 12825⟩, ⟨12850, 12930⟩,
      ⟨12935, 12990⟩, ⟨14000, 14200⟩] 1 5000 60000 = some (-1) := by
  norm_num [getLastLonelyTaskIndex, LONELY_TASK_FMP_DISTANCE,
    LONELY_TASK_NEIGHBOR_DISTANCE, LONELY_TASK_ENVELOPE_SIZE]

/-- `lonelyScan` is a left fold over the indexed tasks from `j` on whose
`start` lies before `windowEnd`: the loop stops at the first remaining task
at or past the window, i.e. after the longest `takeWhile` prefix. -/
theorem lonelyScan_eq_foldl (longTasks : List Task) (envelopeEnd windowEnd : ℝ) :
    ∀ (j : ℕ) (acc : ℤ),
      lonelyScan longTasks envelopeEnd windowEnd j acc =
        ((longTasks.enum.drop j).takeWhile
            (fun p => decide (p.2.start < windowEnd))).foldl
          (fun _ p => if p.2.«end» > envelopeEnd then -1 else (p.1 : ℤ)) acc := by
  intro j acc
  induction j, acc using lonelyScan.induct longTasks envelopeEnd windowEnd with
  | case1 j acc hj hst ih =>
    simp only [dite_eq_ite] at ih
    rw [lonelyScan, dif_pos hj, if_pos hst]
    have hjl : j < longTasks.enum.length := by rw [List.enum_length]; exact hj
    rw [List.drop_eq_getElem_cons hjl, List.getElem_enum,
      List.takeWhile_cons_of_pos (by simpa using hst), List.foldl_cons]
    exact ih
  | case2 j acc hj hst =>
    rw [lonelyScan, dif_pos hj, if_neg hst]
    have hjl : j < longTasks.enum.length := by rw [List.enum_length]; exact hj
    rw [List.drop_eq_getElem_cons hjl, List.getElem_enum,
      List.takeWhile_cons_of_neg (by simpa using hst), List.foldl_nil]
  | case3 j acc hj =>
    rw [lonelyScan, dif_neg hj,
      List.drop_eq_nil_of_le (by rw [List.enum_length]; omega),
      List.takeWhile_nil, List.foldl_nil]

set_option maxRecDepth 4000 in
/-- C4: `findQuietWindow(5000, 60000, ...)`, the spec's scenario 6, returns
`11500` — the candidate at `10000` is disqualified by the 500 ms task at
`11000`, and the window at `11500` succeeds because the three-task cluster
near `12750` and the task at `14000` are lonely envelopes and skipped. -/
theorem findQuietWindow_lonely_cluster : findQuietWindow 5000 60000
    [⟨2200, 10000⟩, ⟨11000, 11500⟩, ⟨12750, 12825⟩, ⟨12850, 12930⟩,
      ⟨12935, 12990⟩, ⟨14000, 14200⟩] = .ok 11500 := by
  have hA : getLastLonelyTaskIndex
      [⟨2200, 10000⟩, ⟨11000, 11500⟩, ⟨12750, 12825⟩, ⟨12850, 12930⟩,
        ⟨12935, 12990⟩, ⟨14000, 14200⟩] 1 5000 60000 = some (-1) := by
    norm_num [getLastLonelyTaskIndex, LONELY_TASK_FMP_DISTANCE,
      LONELY_TASK_NEIGHBOR_DISTANCE, LONELY_TASK_ENVELOPE_SIZE]
  have hB : getLastLonelyTaskIndex
      [⟨2200, 10000⟩, ⟨11000, 11500⟩, ⟨12750, 12825⟩, ⟨12850, 12930⟩,
        ⟨12935, 12990⟩, ⟨14000, 14200⟩] 2 5000 60000 = some 4 := by
    norm_num [getLastLonelyTaskIndex, lonelyScan_eq_foldl, LONELY_TASK_FMP_DISTANCE,
      LONELY_TASK_NEIGHBOR_DISTANCE, LONELY_TASK_ENVELOPE_SIZE, List.enum_cons,
      List.enumFrom]
  have hC : getLastLonelyTaskIndex
      [⟨2200, 10000⟩, ⟨11000, 11500⟩, ⟨12750, 12825⟩, ⟨12850, 12930⟩,
        ⟨12935, 12990⟩, ⟨14000, 14200⟩] 5 5000 60000 = some 5 := by
    norm_num [getLastLonelyTaskIndex, lonelyScan_eq_foldl, LONELY_TASK_FMP_DISTANCE,
      LONELY_TASK_NEIGHBOR_DISTANCE, LONELY_TASK_ENVELOPE_SIZE, List.enum_cons,
      List.enumFrom]
  have hE1pos : (0:ℝ) < Real.exp (-0.045 * ((10000 - 5000) / 1000)) := Real.exp_pos _
  have hE1le : Real.exp (-0.045 * ((10000 - 5000) / 1000)) ≤ 1 := by
    rw [Real.exp_le_one_iff]; norm_num
  have hE2le : Real.exp (-0.045 * ((11500 - 5000) / 1000)) ≤ 1 := by
    rw [Real.exp_le_one_iff]; norm_num
  have hE2lb : -0.045 * ((11500 - 5000:ℝ) / 1000) + 1 ≤
      Real.exp (-0.045 * ((11500 - 5000) / 1000)) := Real.add_one_le_exp _
  rw [findQuietWindow]
  rw [if_neg (by norm_num [MAX_QUIET_WINDOW_SIZE])]
  rw [quietLoop_next 5000 60000 _ 0 (by norm_num) ?h0le ?h0scan]
  rw [quietLoop_quiet 5000 60000 _ 1 (by norm_num) ?h1le ?h1scan]
  · norm_num
  case h0le =>
    simp only [List.getElem_cons_zero, getRequiredWindowSizeInMs]
    intro hgt
    linarith
  case h0scan =>
    rw [quietScan_step _ 5000 60000 _ 1 (-1) (by norm_num) ?h0in hA]
    · rw [if_pos rfl]
    case h0in =>
      simp only [List.getElem_cons_zero, List.getElem_cons_succ,
        getRequiredWindowSizeInMs]
      linarith
  case h1le =>
    simp only [List.getElem_cons_zero, List.getElem_cons_succ,
      getRequiredWindowSizeInMs]
    intro hgt
    linarith
  case h1scan =>
    rw [quietScan_step _ 5000 60000 _ 2 4 (by norm_num) ?h1in hB]
    case h1in =>
      simp only [List.getElem_cons_zero, List.getElem_cons_succ,
        getRequiredWindowSizeInMs]
      linarith
    rw [if_neg (by norm_num)]
    have h5 : ((4:ℤ).toNat + 1) = 5 := rfl
    rw [h5]
    rw [quietScan_step _ 5000 60000 _ 5 5 (by norm_num) ?h2in hC]
    case h2in =>
      simp only [List.getElem_cons_zero, List.getElem_cons_succ,
        getRequiredWindowSizeInMs]
      linarith
    rw [if_neg (by norm_num)]
    have h6 : ((5:ℤ).toNat + 1) = 6 := rfl
    rw [h6]
    apply quietScan_stop
    intro hj
    exact absurd hj (by norm_num)

section WindowSize

open Filter Topology

/-- Scratch facts for the decay function, shared by several claims. -/
theorem getRequiredWindowSizeInMs_strictAnti (t1 t2 : ℝ) (h : t1 < t2) :
    getRequiredWindowSizeInMs t2 < getRequiredWindowSizeInMs t1 := by
  simp only [getRequiredWindowSizeInMs]
  have hexp : Real.exp (-0.045 * (t2 / 1000)) < Real.exp (-0.045 * (t1 / 1000)) := by
    apply Real.exp_lt_exp.mpr
    nlinarith
  nlinarith

theorem getRequiredWindowSizeInMs_pos (t : ℝ) :
    1000 < getRequiredWindowSizeInMs t := by
  simp only [getRequiredWindowSizeInMs]
  have := Real.exp_pos (-0.045 * (t / 1000))
  nlinarith

theorem getRequiredWindowSizeInMs_le (t : ℝ) (h : 0 ≤ t) :
    getRequiredWindowSizeInMs t ≤ 5000 := by
  simp only [getRequiredWindowSizeInMs]
  have : Real.exp (-0.045 * (t / 1000)) ≤ 1 := by
    rw [Real.exp_le_one_iff]
    nlinarith
  nlinarith

theorem getRequiredWindowSizeInMs_tendsto :
    Tendsto getRequiredWindowSizeInMs atTop (𝓝 1000) := by
  have h1 : Tendsto (fun t : ℝ => -0.045 * (t / 1000)) atTop atBot := by
    apply Tendsto.const_mul_atTop_of_neg (by norm_num : (-0.045:ℝ) < 0)
    exact tendsto_id.atTop_div_const (by norm_num)
  have h2 : Tendsto (fun t : ℝ => Real.exp (-0.045 * (t / 1000))) atTop (𝓝 0) :=
    Real.tendsto_exp_atBot.comp h1
  have h3 : Tendsto (fun t : ℝ => (4 * Real.exp (-0.045 * (t / 1000)) + 1) * 1000)
      atTop (𝓝 ((4 * 0 + 1) * 1000)) :=
    (((h2.const_mul 4).add_const 1).mul_const 1000)
  have h4 : ((4:ℝ) * 0 + 1) * 1000 = 1000 := by norm_num
  rw [h4] at h3
  exact h3

end WindowSize

/-- With `1 ≤ i < length`, both unguarded element accesses of
`getLastLonelyTaskIndex` are in bounds, so no fault occurs. -/
theorem getLastLonelyTaskIndex_isSome (longTasks : List Task) (i : ℕ)
    (FMP traceEnd : ℝ) (h1 : 1 ≤ i) (hi : i < longTasks.length) :
    getLastLonelyTaskIndex longTasks i FMP traceEnd ≠ none := by
  rw [getLastLonelyTaskIndex, dif_pos hi]
  simp only
  by_cases hc1 : longTasks[i].start < FMP + LONELY_TASK_FMP_DISTANCE ∨
      traceEnd - longTasks[i].«end» < LONELY_TASK_NEIGHBOR_DISTANCE
  · rw [if_pos hc1]; simp
  · rw [if_neg hc1, dif_pos h1]
    by_cases hc2 : longTasks[i].start - (longTasks.get ⟨i - 1, by omega⟩).«end» <
        LONELY_TASK_NEIGHBOR_DISTANCE ∨
        longTasks[i].«end» - longTasks[i].start > LONELY_TASK_ENVELOPE_SIZE
    · rw [if_pos hc2]; simp
    · rw [if_neg hc2]; simp

/-- The inner scan is always called with a cursor `≥ 1`, and then never
faults. -/
theorem quietScan_ne_none (longTasks : List Task) (FMP traceEnd windowEnd : ℝ) :
    ∀ j : ℕ, 1 ≤ j → quietScan longTasks FMP traceEnd windowEnd j ≠ none := by
  intro j
  induction j using quietScan.induct longTasks FMP traceEnd windowEnd with
  | case1 x hx hst hnone =>
    intro h1
    exact absurd hnone (getLastLonelyTaskIndex_isSome longTasks x FMP traceEnd h1 hx)
  | case2 x hx hst heq =>
    intro h1
    rw [quietScan_step longTasks FMP traceEnd windowEnd x (-1) hx hst heq, if_pos rfl]
    simp
  | case3 x hx hst k heq hne ih =>
    intro h1
    rw [quietScan_step longTasks FMP traceEnd windowEnd x k hx hst heq, if_neg hne]
    exact ih (by omega)
  | case4 x hx hst =>
    intro h1
    rw [quietScan_stop longTasks FMP traceEnd windowEnd x (fun _ => hst)]
    simp
  | case5 x hx =>
    intro h1
    rw [quietScan_stop longTasks FMP traceEnd windowEnd x (fun hj => absurd hj hx)]
    simp

/-- The outer loop either returns the `end` of one of the tasks (at or past
the loop start) or throws `TraceBusy` — never a fault and never
`TraceTooShort`. -/
theorem quietLoop_result (FMP traceEnd : ℝ) (longTasks : List Task) :
    ∀ i : ℕ, (∃ m, ∃ hm : m < longTasks.length, i ≤ m ∧
        quietLoop FMP traceEnd longTasks i = .ok (longTasks[m].«end»)) ∨
      quietLoop FMP traceEnd longTasks i = .error .traceBusy := by
  intro i
  induction i using quietLoop.induct FMP traceEnd longTasks with
  | case1 x hx ws sz we hgt =>
    right; exact quietLoop_busy _ _ _ _ hx hgt
  | case2 x hx ws sz we hle hnone =>
    exact absurd hnone (quietScan_ne_none longTasks FMP traceEnd we (x + 1) (by omega))
  | case3 x hx ws sz we hle htrue =>
    left; exact ⟨x, hx, le_rfl, quietLoop_quiet _ _ _ _ hx hle htrue⟩
  | case4 x hx ws sz we hle hfalse ih =>
    rw [quietLoop_next _ _ _ _ hx hle hfalse]
    rcases ih with ⟨m, hm, hxm, hok⟩ | hbusy
    · left; exact ⟨m, hm, by omega, hok⟩
    · right; exact hbusy
  | case5 x hx =>
    right; exact quietLoop_out _ _ _ _ hx

/-- Every outcome of `findQuietWindow`: `FMP` itself, the `end` of one of
the input tasks, or the `TraceBusy` error. -/
theorem findQuietWindow_result (FMP traceEnd : ℝ) (longTasks : List Task) :
    findQuietWindow FMP traceEnd longTasks = .ok FMP ∨
    (∃ m, ∃ hm : m < longTasks.length,
      findQuietWindow FMP traceEnd longTasks = .ok (longTasks[m].«end»)) ∨
    findQuietWindow FMP traceEnd longTasks = .error .traceBusy := by
  cases longTasks with
  | nil => left; rfl
  | cons t0 rest =>
    rw [findQuietWindow]
    by_cases h0 : t0.start > FMP + MAX_QUIET_WINDOW_SIZE
    · rw [if_pos h0]; left; rfl
    · rw [if_neg h0]
      rcases quietLoop_result FMP traceEnd (t0 :: rest) 0 with ⟨m, hm, _, hok⟩ | hbusy
      · right; left; exact ⟨m, hm, hok⟩
      · right; right; exact hbusy

/-- If every candidate before `i` fits in the trace but is rejected as not
quiet, the outer loop reaches candidate `i`. -/
theorem quietLoop_advance (FMP traceEnd : ℝ) (longTasks : List Task) :
    ∀ i : ℕ,
      (∀ i' < i, ∃ hi' : i' < longTasks.length,
        ¬(longTasks[i'].«end» +
            getRequiredWindowSizeInMs (longTasks[i'].«end» - FMP) > traceEnd) ∧
        quietScan longTasks FMP traceEnd
          (longTasks[i'].«end» + getRequiredWindowSizeInMs (longTasks[i'].«end» - FMP))
          (i' + 1) = some false) →
      quietLoop FMP traceEnd longTasks 0 = quietLoop FMP traceEnd longTasks i := by
  intro i
  induction i with
  | zero => intro _; rfl
  | succ n ih =>
    intro h
    rcases h n (by omega) with ⟨hn, hle, hfalse⟩
    rw [ih (fun i' hi' => h i' (by omega)), quietLoop_next _ _ _ _ hn hle hfalse]

/-- C2: with a non-empty long-task list whose first task starts at or
before `FMP + 5000`, once the scan reaches a candidate `i` whose required
window overruns `traceEnd` (`task[i].end + requiredWindowSize > traceEnd`),
`findQuietWindow` throws `TraceBusy` at once, examining no later candidate;
when the window ends exactly at `traceEnd` the candidate is not rejected by
this check (a quiet scan then returns it). -/
theorem findQuietWindow_traceBusy_boundary (FMP traceEnd : ℝ) (t0 : Task)
    (rest : List Task) (i : ℕ)
    (h0 : ¬t0.start > FMP + 5000)
    (hi : i < (t0 :: rest).length)
    (hreach : ∀ i' < i, ∃ hi' : i' < (t0 :: rest).length,
      ¬((t0 :: rest)[i'].«end» +
          getRequiredWindowSizeInMs ((t0 :: rest)[i'].«end» - FMP) > traceEnd) ∧
      quietScan (t0 :: rest) FMP traceEnd
        ((t0 :: rest)[i'].«end» +
          getRequiredWindowSizeInMs ((t0 :: rest)[i'].«end» - FMP)) (i' + 1) =
        some false) :
    ((t0 :: rest)[i].«end» +
        getRequiredWindowSizeInMs ((t0 :: rest)[i].«end» - FMP) > traceEnd →
      findQuietWindow FMP traceEnd (t0 :: rest) = .error .traceBusy) ∧
    ((t0 :: rest)[i].«end» +
        getRequiredWindowSizeInMs ((t0 :: rest)[i].«end» - FMP) = traceEnd →
      quietScan (t0 :: rest) FMP traceEnd
        ((t0 :: rest)[i].«end» +
          getRequiredWindowSizeInMs ((t0 :: rest)[i].«end» - FMP)) (i + 1) =
        some true →
      findQuietWindow FMP traceEnd (t0 :: rest) = .ok ((t0 :: rest)[i].«end»)) := by
  have hfq : findQuietWindow FMP traceEnd (t0 :: rest) =
      quietLoop FMP traceEnd (t0 :: rest) i := by
    rw [findQuietWindow, if_neg (by simpa [MAX_QUIET_WINDOW_SIZE] using h0)]
    exact quietLoop_advance _ _ _ i hreach
  constructor
  · intro hgt
    rw [hfq]
    exact quietLoop_busy _ _ _ _ hi hgt
  · intro heq hq
    rw [hfq]
    refine quietLoop_quiet _ _ _ _ hi ?_ hq
    rw [heq]
    exact lt_irrefl traceEnd

/-- Witness for C2, the spec's scenario 7: `findQuietWindow(200, 6000,
[{4000, 5700}])` fails with `TraceBusy`. -/
theorem findQuietWindow_traceBusy_boundary_witness :
    findQuietWindow 200 6000 [⟨4000, 5700⟩] = .error .traceBusy := by
  have h := (findQuietWindow_traceBusy_boundary 200 6000 ⟨4000, 5700⟩ [] 0
    (by norm_num) (by norm_num) (by intro i' hi'; omega)).1
  apply h
  simp only [List.getElem_cons_zero]
  have := getRequiredWindowSizeInMs_pos (5700 - 200)
  linarith

/-- C3: the orchestrator fails with `TraceTooShort` exactly when
`traceEnd - FMP < 5000` (before any quiet-window search, hence for any
main-thread events); otherwise, when the scanner yields `v`, it returns
`timeInMs = max v DCL` and `timestamp = (timeInMs + navigationStart) * 1000`
(microseconds). -/
theorem computeWithArtifacts_spec (mainThreadEvents : List Task)
    (traceOfTab : TraceOfTab) :
    (traceOfTab.timings.traceEnd - traceOfTab.timings.firstMeaningfulPaint < 5000 →
      computeWithArtifacts mainThreadEvents traceOfTab = .error .traceTooShort) ∧
    (¬(traceOfTab.timings.traceEnd - traceOfTab.timings.firstMeaningfulPaint < 5000) →
      computeWithArtifacts mainThreadEvents traceOfTab ≠ .error .traceTooShort ∧
      ∀ v : ℝ,
        findQuietWindow traceOfTab.timings.firstMeaningfulPaint
          traceOfTab.timings.traceEnd
          (mainThreadEvents.filter (fun evt =>
            decide (evt.«end» - evt.start ≥ LONG_TASK_THRESHOLD ∧
              evt.«end» > traceOfTab.timings.firstMeaningfulPaint))) = .ok v →
        computeWithArtifacts mainThreadEvents traceOfTab =
          .ok ⟨max v traceOfTab.timings.domContentLoaded,
            (max v traceOfTab.timings.domContentLoaded +
              traceOfTab.timestamps.navigationStart) * 1000⟩) := by
  constructor
  · intro h
    rw [computeWithArtifacts]
    simp only
    rw [if_pos (by simpa [MAX_QUIET_WINDOW_SIZE] using h)]
  · intro h
    rw [computeWithArtifacts]
    simp only
    rw [if_neg (by simpa [MAX_QUIET_WINDOW_SIZE] using h)]
    constructor
    · rcases findQuietWindow_result traceOfTab.timings.firstMeaningfulPaint
          traceOfTab.timings.traceEnd
          (mainThreadEvents.filter (fun evt =>
            decide (evt.«end» - evt.start ≥ LONG_TASK_THRESHOLD ∧
              evt.«end» > traceOfTab.timings.firstMeaningfulPaint)))
        with hr | ⟨m, hm, hr⟩ | hr <;> rw [hr] <;> simp
    · intro v hv
      rw [hv]

/-- Witness for C3, the spec's scenario 1: `FMP = 3400`, `traceEnd = 4500`
fails with `TraceTooShort`. -/
theorem computeWithArtifacts_spec_witness :
    computeWithArtifacts [] ⟨⟨3400, 2000, 4500⟩, ⟨0⟩⟩ = .error .traceTooShort :=
  (computeWithArtifacts_spec [] ⟨⟨3400, 2000, 4500⟩, ⟨0⟩⟩).1 (by norm_num)

/-- On a list where the predicate is downward closed along the order of the
list, stopping at the first failure scans exactly the elements that
satisfy the predicate. -/
theorem takeWhile_eq_filter_of_pairwise {α : Type} (p : α → Bool) :
    ∀ l : List α, l.Pairwise (fun a b => p b = true → p a = true) →
      l.takeWhile p = l.filter p := by
  intro l
  induction l with
  | nil => intro _; rfl
  | cons a t ih =>
    intro hp
    rcases List.pairwise_cons.mp hp with ⟨ha, ht⟩
    by_cases hpa : p a = true
    · rw [List.takeWhile_cons_of_pos hpa, List.filter_cons_of_pos hpa, ih ht]
    · rw [List.takeWhile_cons_of_neg (by simpa using hpa),
        List.filter_cons_of_neg (by simpa using hpa)]
      symm
      rw [List.filter_eq_nil_iff]
      intro x hx hpx
      exact hpa (ha x hx hpx)

/-- Pairwise relations descend to the enumerated list. -/
theorem pairwise_enumFrom {α : Type} {R : α → α → Prop} :
    ∀ (l : List α) (n : ℕ), l.Pairwise R →
      (l.enumFrom n).Pairwise (fun p q => R p.2 q.2) := by
  intro l
  induction l with
  | nil => intro n _; exact List.Pairwise.nil
  | cons a t ih =>
    intro n hp
    rcases List.pairwise_cons.mp hp with ⟨ha, ht⟩
    rw [List.enumFrom_cons]
    refine List.pairwise_cons.mpr ⟨?_, ih (n + 1) ht⟩
    intro q hq
    apply ha
    have hmem : q.2 ∈ (t.enumFrom (n + 1)).map Prod.snd := List.mem_map_of_mem _ hq
    rwa [List.enumFrom_map_snd] at hmem

/-- C1: on a sorted long-task list with `1 ≤ i < length`,
`getLastLonelyTaskIndex` returns `-1` when any of the four gate conditions
fails; otherwise it scans every subsequent task whose `start` is below
`task[i].start + 250 + 1000` without stopping early, recording `-1` for a
task whose `end` exceeds `task[i].start + 250` and the task's index
otherwise, and returns the state after the full scan (a later
within-envelope task overwrites an earlier invalidation). -/
theorem getLastLonelyTaskIndex_spec (longTasks : List Task) (i : ℕ)
    (FMP traceEnd : ℝ)
    (hsorted : longTasks.Pairwise (fun a b => a.start ≤ b.start))
    (h1 : 1 ≤ i) (hi : i < longTasks.length) :
    getLastLonelyTaskIndex longTasks i FMP traceEnd = some (
      if longTasks[i].start < FMP + 5000 ∨
          traceEnd - longTasks[i].«end» < 1000 ∨
          longTasks[i].start - (longTasks.get ⟨i - 1, by omega⟩).«end» < 1000 ∨
          longTasks[i].«end» - longTasks[i].start > 250 then -1
      else
        ((longTasks.enum.drop (i + 1)).filter (fun p =>
            decide (p.2.start < longTasks[i].start + 250 + 1000))).foldl
          (fun _ p => if p.2.«end» > longTasks[i].start + 250 then -1 else (p.1 : ℤ))
          (i : ℤ)) := by
  rw [getLastLonelyTaskIndex, dif_pos hi]
  simp only [LONELY_TASK_FMP_DISTANCE, LONELY_TASK_NEIGHBOR_DISTANCE,
    LONELY_TASK_ENVELOPE_SIZE]
  by_cases hc1 : longTasks[i].start < FMP + 5000 ∨
      traceEnd - longTasks[i].«end» < 1000
  · rw [if_pos hc1, if_pos (by tauto)]
  · rw [if_neg hc1, dif_pos h1]
    by_cases hc2 : longTasks[i].start - (longTasks.get ⟨i - 1, by omega⟩).«end» < 1000 ∨
        longTasks[i].«end» - longTasks[i].start > 250
    · rw [if_pos hc2, if_pos (by tauto)]
    · rw [if_neg hc2, if_neg (by tauto)]
      congr 1
      rw [lonelyScan_eq_foldl]
      congr 1
      apply takeWhile_eq_filter_of_pairwise
      have hpair : longTasks.enum.Pairwise
          (fun p q : ℕ × Task => p.2.start ≤ q.2.start) :=
        pairwise_enumFrom longTasks 0 hsorted
      have hdrop : (longTasks.enum.drop (i + 1)).Pairwise
          (fun p q : ℕ × Task => p.2.start ≤ q.2.start) :=
        List.Pairwise.sublist (List.drop_sublist (i + 1) longTasks.enum) hpair
      refine hdrop.imp ?_
      intro a b hab
      intro hb
      simp only [decide_eq_true_eq] at hb ⊢
      linarith

/-- Witness for C1: the classifier applied to the lonely cluster of the
spec's scenario 6 at index 2 — the gate passes and the scan absorbs tasks
3 and 4, overwriting nothing. -/
theorem getLastLonelyTaskIndex_spec_witness : getLastLonelyTaskIndex
    [⟨2200, 10000⟩, ⟨11000, 11500⟩, ⟨12750, 12825⟩, ⟨12850, 12930⟩,
      ⟨12935, 12990⟩, ⟨14000, 14200⟩] 2 5000 60000 = some 4 := by
  rw [getLastLonelyTaskIndex_spec
    [⟨2200, 10000⟩, ⟨11000, 11500⟩, ⟨12750, 12825⟩, ⟨12850, 12930⟩,
      ⟨12935, 12990⟩, ⟨14000, 14200⟩] 2 5000 60000
    (by norm_num [List.pairwise_cons]) (by norm_num) (by norm_num)]
  norm_num [List.enum_cons, List.enumFrom]

/-- C5: `findQuietWindow` returns `FMP` for an empty long-task list, and
whenever the first task starts strictly after `FMP + 5000`, regardless of
the remaining tasks. -/
theorem findQuietWindow_immediate_FMP (FMP traceEnd : ℝ) :
    findQuietWindow FMP traceEnd [] = .ok FMP ∧
    ∀ (t0 : Task) (rest : List Task), t0.start > FMP + 5000 →
      findQuietWindow FMP traceEnd (t0 :: rest) = .ok FMP := by
  constructor
  · rfl
  · intro t0 rest h
    rw [findQuietWindow, if_pos (by simpa [MAX_QUIET_WINDOW_SIZE] using h)]

/-- Witness for C5: the spec's "long tasks more than 5 s out" test. -/
theorem findQuietWindow_immediate_FMP_witness :
    findQuietWindow 200 60000 [⟨5600, 6000⟩, ⟨5601, 900000⟩] = .ok 200 :=
  (findQuietWindow_immediate_FMP 200 60000).2 ⟨5600, 6000⟩ [⟨5601, 900000⟩]
    (by norm_num)

/-- C6: `getRequiredWindowSizeInMs` computes
`(4 * e^(-0.045 * t/1000) + 1) * 1000`; it is strictly decreasing on the
non-negative reals, equals `5000` at `t = 0`, and tends to `1000` at
infinity. -/
theorem getRequiredWindowSizeInMs_decay :
    (∀ t : ℝ, 0 ≤ t →
      getRequiredWindowSizeInMs t = (4 * Real.exp (-0.045 * (t / 1000)) + 1) * 1000) ∧
    (∀ t1 t2 : ℝ, 0 ≤ t1 → t1 < t2 →
      getRequiredWindowSizeInMs t1 > getRequiredWindowSizeInMs t2) ∧
    getRequiredWindowSizeInMs 0 = 5000 ∧
    Filter.Tendsto getRequiredWindowSizeInMs Filter.atTop (nhds 1000) := by
  refine ⟨fun t _ => rfl, fun t1 t2 _ h => getRequiredWindowSizeInMs_strictAnti t1 t2 h,
    ?_, getRequiredWindowSizeInMs_tendsto⟩
  show (4 * Real.exp (-0.045 * ((0:ℝ) / 1000)) + 1) * 1000 = 5000
  norm_num

/-- Witness for C6: evaluated at `0 < 10000`. -/
theorem getRequiredWindowSizeInMs_decay_witness :
    getRequiredWindowSizeInMs 0 = 5000 ∧
    getRequiredWindowSizeInMs 0 > getRequiredWindowSizeInMs 10000 :=
  ⟨getRequiredWindowSizeInMs_decay.2.2.1,
    getRequiredWindowSizeInMs_decay.2.1 0 10000 (by norm_num) (by norm_num)⟩

/-- C8: `getLastLonelyTaskIndex` dereferences `longTasks[i - 1]` without a
guard, so `1 ≤ i < length` is the precondition under which it cannot
fault; at `i = 0` the access can fault; and the scanner only ever calls it
at in-bounds indices `≥ 1`, so `findQuietWindow` itself never faults. -/
theorem getLastLonelyTaskIndex_access_safety :
    (∀ (longTasks : List Task) (i : ℕ) (FMP traceEnd : ℝ),
      1 ≤ i → i < longTasks.length →
      getLastLonelyTaskIndex longTasks i FMP traceEnd ≠ none) ∧
    getLastLonelyTaskIndex [⟨6000, 6100⟩] 0 0 10000 = none ∧
    ∀ (FMP traceEnd : ℝ) (longTasks : List Task),
      findQuietWindow FMP traceEnd longTasks ≠ .error .fault := by
  refine ⟨fun l i FMP tE h1 hi => getLastLonelyTaskIndex_isSome l i FMP tE h1 hi,
    ?_, ?_⟩
  · norm_num [getLastLonelyTaskIndex, LONELY_TASK_FMP_DISTANCE,
      LONELY_TASK_NEIGHBOR_DISTANCE]
  · intro FMP traceEnd longTasks h
    rcases findQuietWindow_result FMP traceEnd longTasks with hr | ⟨m, hm, hr⟩ | hr <;>
      rw [hr] at h <;> simp at h

/-- Witness for C8: a call under the scanner's precondition cannot fault. -/
theorem getLastLonelyTaskIndex_access_safety_witness :
    getLastLonelyTaskIndex [⟨6000, 6100⟩, ⟨8000, 8100⟩] 1 0 20000 ≠ none :=
  getLastLonelyTaskIndex_access_safety.1 [⟨6000, 6100⟩, ⟨8000, 8100⟩] 1 0 20000
    (by norm_num) (by norm_num)

/-- C9: a non-sentinel result `k` of `getLastLonelyTaskIndex` satisfies
`i ≤ k < length`, so the scanner's new cursor `k.toNat + 1` strictly
increases past `i` and the inner scan makes progress (its totality in this
development is the termination argument). -/
theorem getLastLonelyTaskIndex_cursor_progress (longTasks : List Task) (i : ℕ)
    (FMP traceEnd : ℝ) (k : ℤ)
    (h : getLastLonelyTaskIndex longTasks i FMP traceEnd = some k)
    (hk : k ≠ -1) :
    (i : ℤ) ≤ k ∧ k < (longTasks.length : ℤ) ∧ i < k.toNat + 1 := by
  have hb := getLastLonelyTaskIndex_bounds longTasks i FMP traceEnd k h hk
  omega

set_option maxRecDepth 4000 in
/-- Witness for C9: the envelope starting at index 2 of the spec's
scenario 6 ends at index 4. -/
theorem getLastLonelyTaskIndex_cursor_progress_witness :
    ((2:ℕ) : ℤ) ≤ 4 ∧ (4:ℤ) <
      (([⟨2200, 10000⟩, ⟨11000, 11500⟩, ⟨12750, 12825⟩, ⟨12850, 12930⟩,
        ⟨12935, 12990⟩, ⟨14000, 14200⟩] : List Task).length : ℤ) ∧
      2 < (4:ℤ).toNat + 1 :=
  getLastLonelyTaskIndex_cursor_progress
    [⟨2200, 10000⟩, ⟨11000, 11500⟩, ⟨12750, 12825⟩, ⟨12850, 12930⟩,
      ⟨12935, 12990⟩, ⟨14000, 14200⟩] 2 5000 60000 4
    (by norm_num [getLastLonelyTaskIndex, lonelyScan_eq_foldl,
      LONELY_TASK_FMP_DISTANCE, LONELY_TASK_NEIGHBOR_DISTANCE,
      LONELY_TASK_ENVELOPE_SIZE, List.enum_cons, List.enumFrom])
    (by norm_num)

/-- C10: a non-error result of `findQuietWindow` is `FMP` or some input
task's `end`; under the orchestrator's filter (`end > FMP`) it is `≥ FMP`,
and the orchestrator's `timeInMs` is `≥ FMP` and `≥ DCL`. -/
theorem findQuietWindow_ok_lower_bound :
    (∀ (FMP traceEnd v : ℝ) (longTasks : List Task),
      findQuietWindow FMP traceEnd longTasks = .ok v →
      v = FMP ∨ ∃ t ∈ longTasks, v = t.«end») ∧
    (∀ (FMP traceEnd v : ℝ) (longTasks : List Task),
      (∀ t ∈ longTasks, FMP < t.«end») →
      findQuietWindow FMP traceEnd longTasks = .ok v → FMP ≤ v) ∧
    (∀ (mainThreadEvents : List Task) (traceOfTab : TraceOfTab)
      (r : FirstInteractiveResult),
      computeWithArtifacts mainThreadEvents traceOfTab = .ok r →
      traceOfTab.timings.firstMeaningfulPaint ≤ r.timeInMs ∧
      traceOfTab.timings.domContentLoaded ≤ r.timeInMs) := by
  have hA : ∀ (FMP traceEnd v : ℝ) (longTasks : List Task),
      findQuietWindow FMP traceEnd longTasks = .ok v →
      v = FMP ∨ ∃ t ∈ longTasks, v = t.«end» := by
    intro FMP traceEnd v longTasks h
    rcases findQuietWindow_result FMP traceEnd longTasks with hr | ⟨m, hm, hr⟩ | hr
    · rw [hr] at h
      left
      exact (Except.ok.inj h).symm
    · rw [hr] at h
      right
      exact ⟨longTasks[m], List.getElem_mem hm, (Except.ok.inj h).symm⟩
    · rw [hr] at h
      cases h
  have hB : ∀ (FMP traceEnd v : ℝ) (longTasks : List Task),
      (∀ t ∈ longTasks, FMP < t.«end») →
      findQuietWindow FMP traceEnd longTasks = .ok v → FMP ≤ v := by
    intro FMP traceEnd v longTasks hall h
    rcases hA FMP traceEnd v longTasks h with hv | ⟨t, ht, hv⟩
    · exact le_of_eq hv.symm
    · exact le_of_lt (hv ▸ hall t ht)
  refine ⟨hA, hB, ?_⟩
  intro mainThreadEvents traceOfTab r h
  obtain ⟨rt, rs⟩ := r
  rw [computeWithArtifacts] at h
  simp only at h
  by_cases hshort : traceOfTab.timings.traceEnd -
      traceOfTab.timings.firstMeaningfulPaint < MAX_QUIET_WINDOW_SIZE
  · rw [if_pos hshort] at h
    cases h
  rw [if_neg hshort] at h
  rcases hfq : findQuietWindow traceOfTab.timings.firstMeaningfulPaint
      traceOfTab.timings.traceEnd
      (mainThreadEvents.filter (fun evt =>
        decide (evt.«end» - evt.start ≥ LONG_TASK_THRESHOLD ∧
          evt.«end» > traceOfTab.timings.firstMeaningfulPaint)))
    with e | v
  · rw [hfq] at h
    have h' : (Except.error e : Except FIError FirstInteractiveResult) =
        .ok ⟨rt, rs⟩ := h
    cases h'
  · rw [hfq] at h
    have h' : (Except.ok (⟨max v traceOfTab.timings.domContentLoaded,
        (max v traceOfTab.timings.domContentLoaded +
          traceOfTab.timestamps.navigationStart) * 1000⟩ :
        FirstInteractiveResult) : Except FIError FirstInteractiveResult) =
        .ok ⟨rt, rs⟩ := h
    have hmk := Except.ok.inj h'
    have hv : traceOfTab.timings.firstMeaningfulPaint ≤ v := by
      refine hB _ _ _ _ ?_ hfq
      intro t ht
      have hft := (List.mem_filter.mp ht).2
      rw [decide_eq_true_eq] at hft
      exact hft.2
    have ht : rt = max v traceOfTab.timings.domContentLoaded :=
      (congrArg FirstInteractiveResult.timeInMs hmk).symm
    rw [ht]
    constructor
    · exact le_trans hv (le_max_left _ _)
    · exact le_max_right _ _

/-- Witness for C10: the scanner's value for scenario 4 is one of the task
ends and in particular not below `FMP`. -/
theorem findQuietWindow_ok_lower_bound_witness :
    (200:ℝ) ≤ 4000 :=
  findQuietWindow_ok_lower_bound.2.1 200 60000 4000
    [⟨2200, 4000⟩, ⟨9000, 10000⟩] (by norm_num)
    (by
      have hexp1 : Real.exp (-0.045 * ((4000 - 200) / 1000)) ≤ 1 := by
        rw [Real.exp_le_one_iff]; norm_num
      have hexp0 : (0:ℝ) < Real.exp (-0.045 * ((4000 - 200) / 1000)) :=
        Real.exp_pos _
      rw [findQuietWindow]
      rw [if_neg (by norm_num [MAX_QUIET_WINDOW_SIZE])]
      rw [quietLoop_quiet 200 60000 _ 0 (by norm_num) ?hle ?hq]
      · simp only [List.getElem_cons_zero]
      case hle =>
        simp only [List.getElem_cons_zero, getRequiredWindowSizeInMs]
        intro hgt
        nlinarith
      case hq =>
        apply quietScan_stop
        intro hj
        simp only [List.getElem_cons_zero, List.getElem_cons_succ,
          getRequiredWindowSizeInMs]
        intro hlt
        nlinarith)

/-- Unfolding step for `quietScan` when the classifier faults. -/
theorem quietScan_fault (longTasks : List Task) (FMP traceEnd windowEnd : ℝ)
    (j : ℕ) (hj : j < longTasks.length)
    (hst : longTasks[j].start < windowEnd)
    (hl : getLastLonelyTaskIndex longTasks j FMP traceEnd = none) :
    quietScan longTasks FMP traceEnd windowEnd j = none := by
  rw [quietScan, dif_pos hj, if_pos hst]
  split
  · rfl
  · next k heq => rw [hl] at heq; cases heq

end FirstInteractive

namespace FirstInteractiveV2

open FirstInteractive (Task FIError TraceOfTab FirstInteractiveResult)

/-- `LONELY_TASK_FMP_DISTANCE` from the second excerpt. -/
def LONELY_TASK_FMP_DISTANCE : ℝ := 5000

/-- `LONELY_TASK_ENVELOPE_SIZE` from the second excerpt. -/
def LONELY_TASK_ENVELOPE_SIZE : ℝ := 250

/-- `LONELY_TASK_NEIGHBOR_DISTANCE` from the second excerpt. -/
def LONELY_TASK_NEIGHBOR_DISTANCE : ℝ := 1000

/-- `MAX_QUIET_WINDOW_SIZE` from the second excerpt. -/
def MAX_QUIET_WINDOW_SIZE : ℝ := 5000

/-- `getRequiredWindowSizeInMs` from the second excerpt. -/
noncomputable def getRequiredWindowSizeInMs (t : ℝ) : ℝ :=
  let tInSeconds := t / 1000
  let exponentiationComponent := Real.exp (-0.045 * tInSeconds)
  (4 * exponentiationComponent + 1) * 1000

/-- The forward-scan loop of the second excerpt's `getLastLonelyTaskIndex`. -/
noncomputable def lonelyScan (longTasks : List Task) (envelopeEnd windowEnd : ℝ)
    (j : ℕ) (lonelyTaskIndex : ℤ) : ℤ :=
  if hj : j < longTasks.length then
    if longTasks[j].start < windowEnd then
      lonelyScan longTasks envelopeEnd windowEnd (j + 1)
        (if longTasks[j].«end» > envelopeEnd then -1 else (j : ℤ))
    else lonelyTaskIndex
  else lonelyTaskIndex
termination_by longTasks.length - j
decreasing_by omega

/-- `getLastLonelyTaskIndex` from the second excerpt. -/
noncomputable def getLastLonelyTaskIndex (longTasks : List Task) (i : ℕ)
    (FMP traceEnd : ℝ) : Option ℤ :=
  if hi : i < longTasks.length then
    let longTask := longTasks[i]
    if longTask.start < FMP + LONELY_TASK_FMP_DISTANCE ∨
        traceEnd - longTask.«end» < LONELY_TASK_NEIGHBOR_DISTANCE then
      some (-1)
    else if hprev : 1 ≤ i then
      let previousTask := longTasks.get ⟨i - 1, by omega⟩
      if longTask.start - previousTask.«end» < LONELY_TASK_NEIGHBOR_DISTANCE ∨
          longTask.«end» - longTask.start > LONELY_TASK_ENVELOPE_SIZE then
        some (-1)
      else
        some (lonelyScan longTasks
          (longTask.start + LONELY_TASK_ENVELOPE_SIZE)
          (longTask.start + LONELY_TASK_ENVELOPE_SIZE + LONELY_TASK_NEIGHBOR_DISTANCE)
          (i + 1) (i : ℤ))
    else none
  else none

/-- The two excerpts' scan loops agree. -/
theorem lonelyScan_eq (longTasks : List Task) (envelopeEnd windowEnd : ℝ) :
    ∀ (j : ℕ) (acc : ℤ),
      lonelyScan longTasks envelopeEnd windowEnd j acc =
      FirstInteractive.lonelyScan longTasks envelopeEnd windowEnd j acc := by
  intro j acc
  induction j, acc using lonelyScan.induct longTasks envelopeEnd windowEnd with
  | case1 j acc hj hst ih =>
    simp only [dite_eq_ite] at ih
    rw [lonelyScan, dif_pos hj, if_pos hst,
      FirstInteractive.lonelyScan, dif_pos hj, if_pos hst]
    exact ih
  | case2 j acc hj hst =>
    rw [lonelyScan, dif_pos hj, if_neg hst,
      FirstInteractive.lonelyScan, dif_pos hj, if_neg hst]
  | case3 j acc hj =>
    rw [lonelyScan, dif_neg hj, FirstInteractive.lonelyScan, dif_neg hj]

/-- The two excerpts' classifiers agree. -/
theorem getLastLonelyTaskIndex_eq (longTasks : List Task) (i : ℕ)
    (FMP traceEnd : ℝ) :
    getLastLonelyTaskIndex longTasks i FMP traceEnd =
    FirstInteractive.getLastLonelyTaskIndex longTasks i FMP traceEnd := by
  rw [getLastLonelyTaskIndex, FirstInteractive.getLastLonelyTaskIndex]
  simp only [LONELY_TASK_FMP_DISTANCE, FirstInteractive.LONELY_TASK_FMP_DISTANCE,
    LONELY_TASK_NEIGHBOR_DISTANCE, FirstInteractive.LONELY_TASK_NEIGHBOR_DISTANCE,
    LONELY_TASK_ENVELOPE_SIZE, FirstInteractive.LONELY_TASK_ENVELOPE_SIZE,
    lonelyScan_eq]

/-- The inner loop of the second excerpt's `findQuietWindow`. -/
noncomputable def quietScan (longTasks : List Task) (FMP traceEnd windowEnd : ℝ)
    (j : ℕ) : Option Bool :=
  if hj : j < longTasks.length then
    if longTasks[j].start < windowEnd then
      match hl : getLastLonelyTaskIndex longTasks j FMP traceEnd with
      | none => none
      | some lastLonelyTaskIndex =>
        if hneg : lastLonelyTaskIndex = -1 then some false
        else quietScan longTasks FMP traceEnd windowEnd (lastLonelyTaskIndex.toNat + 1)
    else some true
  else some true
termination_by longTasks.length - j
decreasing_by
  rw [getLastLonelyTaskIndex_eq] at hl
  have hb := FirstInteractive.getLastLonelyTaskIndex_bounds longTasks j FMP traceEnd
    lastLonelyTaskIndex hl hneg
  omega

/-- The two excerpts' inner loops agree. -/
theorem quietScan_eq (longTasks : List Task) (FMP traceEnd windowEnd : ℝ) :
    ∀ j : ℕ, quietScan longTasks FMP traceEnd windowEnd j =
      FirstInteractive.quietScan longTasks FMP traceEnd windowEnd j := by
  intro j
  induction j using quietScan.induct longTasks FMP traceEnd windowEnd with
  | case1 x hx hst hnone =>
    rw [quietScan, dif_pos hx, if_pos hst]
    rw [FirstInteractive.quietScan_fault longTasks FMP traceEnd windowEnd x hx hst
      ((getLastLonelyTaskIndex_eq longTasks x FMP traceEnd).symm.trans hnone)]
    split
    · rfl
    · next k heq => rw [hnone] at heq; cases heq
  | case2 x hx hst heq =>
    rw [quietScan, dif_pos hx, if_pos hst]
    rw [FirstInteractive.quietScan_step longTasks FMP traceEnd windowEnd x (-1) hx hst
      ((getLastLonelyTaskIndex_eq longTasks x FMP traceEnd).symm.trans heq), if_pos rfl]
    split
    · next heq' => rw [heq] at heq'; cases heq'
    · next k heq' =>
      rw [heq] at heq'
      cases heq'
      rw [dif_pos rfl]
  | case3 x hx hst k heq hne ih =>
    rw [quietScan, dif_pos hx, if_pos hst]
    rw [FirstInteractive.quietScan_step longTasks FMP traceEnd windowEnd x k hx hst
      ((getLastLonelyTaskIndex_eq longTasks x FMP traceEnd).symm.trans heq), if_neg hne]
    split
    · next heq' => rw [heq] at heq'; cases heq'
    · next k' heq' =>
      rw [heq] at heq'
      cases heq'
      rw [dif_neg hne]
      exact ih
  | case4 x hx hst =>
    rw [quietScan, dif_pos hx, if_neg hst,
      FirstInteractive.quietScan_stop longTasks FMP traceEnd windowEnd x (fun _ => hst)]
  | case5 x hx =>
    rw [quietScan, dif_neg hx,
      FirstInteractive.quietScan_stop longTasks FMP traceEnd windowEnd x
        (fun hj => absurd hj hx)]

/-- The outer loop of the second excerpt's `findQuietWindow`. -/
noncomputable def quietLoop (FMP traceEnd : ℝ) (longTasks : List Task)
    (i : ℕ) : Except FIError ℝ :=
  if hi : i < longTasks.length then
    let windowStart := longTasks[i].«end»
    let windowSize := getRequiredWindowSizeInMs (windowStart - FMP)
    let windowEnd := windowStart + windowSize
    if windowEnd > traceEnd then .error .traceBusy
    else
      match quietScan longTasks FMP traceEnd windowEnd (i + 1) with
      | none => .error .fault
      | some true => .ok windowStart
      | some false => quietLoop FMP traceEnd longTasks (i + 1)
  else .error .traceBusy
termination_by longTasks.length - i
decreasing_by omega

/-- The two excerpts' outer loops agree. -/
theorem quietLoop_eq (FMP traceEnd : ℝ) (longTasks : List Task) :
    ∀ i : ℕ, quietLoop FMP traceEnd longTasks i =
      FirstInteractive.quietLoop FMP traceEnd longTasks i := by
  intro i
  induction i using quietLoop.induct FMP traceEnd longTasks with
  | case1 x hx ws sz we hgt =>
    rw [quietLoop, dif_pos hx]
    simp only
    rw [if_pos hgt, FirstInteractive.quietLoop_busy FMP traceEnd longTasks x hx hgt]
  | case2 x hx ws sz we hle hnone =>
    rw [quietLoop, dif_pos hx]
    simp only
    rw [if_neg hle, hnone]
    have hnone' : FirstInteractive.quietScan longTasks FMP traceEnd
        (longTasks[x].«end» +
          FirstInteractive.getRequiredWindowSizeInMs (longTasks[x].«end» - FMP))
        (x + 1) = none := by
      rw [← quietScan_eq]
      exact hnone
    have hle' : ¬longTasks[x].«end» +
        FirstInteractive.getRequiredWindowSizeInMs (longTasks[x].«end» - FMP) >
        traceEnd := hle
    rw [FirstInteractive.quietLoop, dif_pos hx]
    simp only
    rw [if_neg hle', hnone']
  | case3 x hx ws sz we hle htrue =>
    rw [quietLoop, dif_pos hx]
    simp only
    rw [if_neg hle, htrue]
    have htrue' : FirstInteractive.quietScan longTasks FMP traceEnd
        (longTasks[x].«end» +
          FirstInteractive.getRequiredWindowSizeInMs (longTasks[x].«end» - FMP))
        (x + 1) = some true := by
      rw [← quietScan_eq]
      exact htrue
    rw [FirstInteractive.quietLoop_quiet FMP traceEnd longTasks x hx hle htrue']
  | case4 x hx ws sz we hle hfalse ih =>
    rw [quietLoop, dif_pos hx]
    simp only
    rw [if_neg hle, hfalse]
    have hfalse' : FirstInteractive.quietScan longTasks FMP traceEnd
        (longTasks[x].«end» +
          FirstInteractive.getRequiredWindowSizeInMs (longTasks[x].«end» - FMP))
        (x + 1) = some false := by
      rw [← quietScan_eq]
      exact hfalse
    rw [FirstInteractive.quietLoop_next FMP traceEnd longTasks x hx hle hfalse']
    exact ih
  | case5 x hx =>
    rw [quietLoop, dif_neg hx, FirstInteractive.quietLoop_out FMP traceEnd longTasks x hx]

/-- `findQuietWindow` from the second excerpt. -/
noncomputable def findQuietWindow (FMP traceEnd : ℝ) (longTasks : List Task) :
    Except FIError ℝ :=
  match longTasks with
  | [] => .ok FMP
  | t0 :: rest =>
    if t0.start > FMP + MAX_QUIET_WINDOW_SIZE then .ok FMP
    else quietLoop FMP traceEnd (t0 :: rest) 0

/-- The two excerpts' `findQuietWindow` agree. -/
theorem findQuietWindow_eq (FMP traceEnd : ℝ) (longTasks : List Task) :
    findQuietWindow FMP traceEnd longTasks =
    FirstInteractive.findQuietWindow FMP traceEnd longTasks := by
  cases longTasks with
  | nil => rfl
  | cons t0 rest =>
    rw [findQuietWindow, FirstInteractive.findQuietWindow]
    simp only [MAX_QUIET_WINDOW_SIZE, FirstInteractive.MAX_QUIET_WINDOW_SIZE,
      quietLoop_eq]

/-- `computeWithArtifacts` from the second excerpt: the long-task duration
threshold is the inlined literal `50`. -/
noncomputable def computeWithArtifacts (mainThreadEvents : List Task)
    (traceOfTab : TraceOfTab) : Except FIError FirstInteractiveResult :=
  let navStart := traceOfTab.timestamps.navigationStart
  let FMP := traceOfTab.timings.firstMeaningfulPaint
  let DCL := traceOfTab.timings.domContentLoaded
  let traceEnd := traceOfTab.timings.traceEnd
  if traceEnd - FMP < MAX_QUIET_WINDOW_SIZE then .error .traceTooShort
  else
    let longTasks := mainThreadEvents.filter
      (fun evt => decide (evt.«end» - evt.start ≥ 50 ∧ evt.«end» > FMP))
    match findQuietWindow FMP traceEnd longTasks with
    | .error e => .error e
    | .ok firstInteractive =>
      let valueInMs := max firstInteractive DCL
      .ok ⟨valueInMs, (valueInMs + navStart) * 1000⟩

/-- The two excerpts' orchestrators agree. -/
theorem computeWithArtifacts_eq (mainThreadEvents : List Task)
    (traceOfTab : TraceOfTab) :
    computeWithArtifacts mainThreadEvents traceOfTab =
    FirstInteractive.computeWithArtifacts mainThreadEvents traceOfTab := by
  rw [computeWithArtifacts, FirstInteractive.computeWithArtifacts]
  simp only [MAX_QUIET_WINDOW_SIZE, FirstInteractive.MAX_QUIET_WINDOW_SIZE,
    FirstInteractive.LONG_TASK_THRESHOLD, findQuietWindow_eq]

end FirstInteractiveV2

/-- C7: the two excerpted versions of the detector are extensionally
equal — `getRequiredWindowSizeInMs`, `getLastLonelyTaskIndex`,
`findQuietWindow` and `computeWithArtifacts` of the first excerpt agree
with those of the second on every input, the only textual difference being
the named 50 ms threshold constant versus the inlined literal. -/
theorem firstInteractive_versions_extensionally_equal :
    (∀ t : ℝ, FirstInteractiveV2.getRequiredWindowSizeInMs t =
      FirstInteractive.getRequiredWindowSizeInMs t) ∧
    (∀ (longTasks : List FirstInteractive.Task) (i : ℕ) (FMP traceEnd : ℝ),
      FirstInteractiveV2.getLastLonelyTaskIndex longTasks i FMP traceEnd =
      FirstInteractive.getLastLonelyTaskIndex longTasks i FMP traceEnd) ∧
    (∀ (FMP traceEnd : ℝ) (longTasks : List FirstInteractive.Task),
      FirstInteractiveV2.findQuietWindow FMP traceEnd longTasks =
      FirstInteractive.findQuietWindow FMP traceEnd longTasks) ∧
    (∀ (mainThreadEvents : List FirstInteractive.Task)
      (traceOfTab : FirstInteractive.TraceOfTab),
      FirstInteractiveV2.computeWithArtifacts mainThreadEvents traceOfTab =
      FirstInteractive.computeWithArtifacts mainThreadEvents traceOfTab) :=
  ⟨fun _ => rfl, FirstInteractiveV2.getLastLonelyTaskIndex_eq,
    FirstInteractiveV2.findQuietWindow_eq, FirstInteractiveV2.computeWithArtifacts_eq⟩
